import Mathlib

/-!
Verification of the Response Interpretation & Orchestration Pipeline of the
apollo-tech repository.

The development shallowly embeds the core Python modules:

* `app/agent.py` — `Agent._parse_llm_response` (the four-strategy fallback
  interpreter) and `Agent.process_input` (the orchestrator);
* `app/services/context_manager.py` — the conversation store
  (`add_message`, `add_tool_call`, `get_formatted_history`,
  `get_tool_context`, `get_full_context`);
* `app/services/llm_connector.py` — the JSON-wrapping normalization of
  `OllamaConnector.generate_with_tool_context`.

Python JSON values are modelled by `JValue` (numbers are modelled as
integers; the fractional/exponent number forms, which never occur in the
scenarios of interest, are rejected by the modelled parser).  Python's
`json.loads` is modelled by `Json.parse`, `json.dumps` by `jdumps`/`jDumpStr`.
Python exceptions that escape `_parse_llm_response` / `process_input` are
modelled with `Except Err`.  External collaborators (tool discovery, tool
execution, text generation) are oracles: `Oracles.tools` is the discovery
result, `Oracles.gen n` the raw text returned by the n-th generation call of
a request, and `Oracles.exec` the execution outcome.
-/

set_option maxRecDepth 8192

/-- Model of a Python/JSON value as produced by `json.loads`.  `null` doubles
as Python's `None`.  Object members keep their textual order; duplicate keys
are resolved by `jlookup`, which returns the last binding (as `dict` does). -/
inductive JValue where
  | null
  | bool (b : Bool)
  | num (n : Int)
  | str (s : String)
  | arr (elems : List JValue)
  | obj (members : List (String × JValue))
deriving Repr

/-- Shorthand for the member list of a JSON object. -/
abbrev JObj := List (String × JValue)

/-- Dictionary lookup on an object member list: the LAST binding wins, which
matches how `dict` construction treats duplicate keys in `json.loads`. -/
def jlookup : JObj → String → Option JValue
  | [], _ => none
  | (k, v) :: rest, key =>
    match jlookup rest key with
    | some r => some r
    | none => if k = key then some v else none

/-- Test for the JSON null / Python `None` value. -/
def JValue.isNull : JValue → Bool
  | .null => true
  | _ => false

/-- Test for a JSON string value. -/
def JValue.isStr : JValue → Bool
  | .str _ => true
  | _ => false

/-- Python truthiness of a JSON value (`if tool_call:` and friends). -/
def pyTruthy : JValue → Bool
  | .null => false
  | .bool b => b
  | .num n => n != 0
  | .str s => s ≠ ""
  | .arr xs => !xs.isEmpty
  | .obj m => !m.isEmpty

/-! ### Character helpers -/

/-- Whitespace accepted between JSON tokens by `json.loads`. -/
def isJsonWs (c : Char) : Bool :=
  c = ' ' || c = '\t' || c = '\n' || c = '\r'

/-- Whitespace for Python's `str.strip()` and the regex class `\s`
(the ASCII part: space, tab, newline, carriage return, vertical tab,
form feed). -/
def pyIsSpace (c : Char) : Bool :=
  c = ' ' || c = '\t' || c = '\n' || c = '\r' || c = Char.ofNat 11 || c = Char.ofNat 12

/-- Drop leading JSON whitespace. -/
def skipWs : List Char → List Char
  | [] => []
  | c :: rest => if isJsonWs c then skipWs rest else c :: rest

/-- Drop leading Python whitespace. -/
def skipPyWs : List Char → List Char
  | [] => []
  | c :: rest => if pyIsSpace c then skipPyWs rest else c :: rest

/-- Python's `str.strip()`. -/
def pyStrip (s : String) : String :=
  String.mk ((skipPyWs s.data).reverse |> skipPyWs |>.reverse)

/-- Python's `str.startswith`, on the list model of strings. -/
def pyStartsWith (s pre : String) : Bool :=
  pre.data.isPrefixOf s.data

/-- Python's `str.endswith`. -/
def pyEndsWith (s suf : String) : Bool :=
  suf.data.reverse.isPrefixOf s.data.reverse

/-- Value of a hexadecimal digit, if any. -/
def hexVal (c : Char) : Option Nat :=
  if '0' ≤ c ∧ c ≤ '9' then some (c.toNat - '0'.toNat)
  else if 'a' ≤ c ∧ c ≤ 'f' then some (c.toNat - 'a'.toNat + 10)
  else if 'A' ≤ c ∧ c ≤ 'F' then some (c.toNat - 'A'.toNat + 10)
  else none

/-! ### A model of `json.loads`

A fueled recursive-descent parser.  The fuel strictly decreases on every
recursive call and each call consumes at least one input character, so
`length + 1` fuel always suffices. -/

/-- Parse the body of a JSON string (the opening quote already consumed),
accumulating characters in reverse.  Returns the string and the rest of the
input.  Unescaped control characters and bad escapes are rejected, as in the
strict (default) mode of `json.loads`. -/
def parseJStrAux : Nat → List Char → List Char → Option (String × List Char)
  | 0, _, _ => none
  | fuel + 1, acc, cs =>
    match cs with
    | [] => none
    | '"' :: rest => some (String.mk acc.reverse, rest)
    | '\\' :: esc :: rest =>
      match esc with
      | '"' => parseJStrAux fuel ('"' :: acc) rest
      | '\\' => parseJStrAux fuel ('\\' :: acc) rest
      | '/' => parseJStrAux fuel ('/' :: acc) rest
      | 'b' => parseJStrAux fuel (Char.ofNat 8 :: acc) rest
      | 'f' => parseJStrAux fuel (Char.ofNat 12 :: acc) rest
      | 'n' => parseJStrAux fuel ('\n' :: acc) rest
      | 'r' => parseJStrAux fuel ('\r' :: acc) rest
      | 't' => parseJStrAux fuel ('\t' :: acc) rest
      | 'u' =>
        match rest with
        | h1 :: h2 :: h3 :: h4 :: rest' =>
          match hexVal h1, hexVal h2, hexVal h3, hexVal h4 with
          | some a, some b, some c, some d =>
            parseJStrAux fuel (Char.ofNat (((a * 16 + b) * 16 + c) * 16 + d) :: acc) rest'
          | _, _, _, _ => none
        | _ => none
      | _ => none
    | c :: rest =>
      if c.toNat < 32 then none else parseJStrAux fuel (c :: acc) rest

/-- Fold a digit run into a natural number. -/
def digitsToNat (acc : Nat) : List Char → Nat
  | [] => acc
  | c :: rest => digitsToNat (acc * 10 + (c.toNat - '0'.toNat)) rest

/-- Parse a non-negative JSON integer (leading-zero rule of the JSON number
grammar enforced; a following `.`, `e` or `E` — a float — is rejected by the
model, see the module comment). -/
def parseJNat (cs : List Char) : Option (Nat × List Char) :=
  match cs.span (fun c => c.isDigit) with
  | ([], _) => none
  | (d :: ds, rest) =>
    if d = '0' ∧ ds ≠ [] then none
    else
      match rest with
      | '.' :: _ => none
      | 'e' :: _ => none
      | 'E' :: _ => none
      | _ => some (digitsToNat 0 (d :: ds), rest)

/-- Parse a JSON number (integer subset). -/
def parseJNum (cs : List Char) : Option (JValue × List Char) :=
  match cs with
  | '-' :: rest =>
    match parseJNat rest with
    | some (n, r) => some (.num (-(n : Int)), r)
    | none => none
  | _ =>
    match parseJNat cs with
    | some (n, r) => some (.num (n : Int), r)
    | none => none

/-- Mode of the single-function JSON parser: a value, the members of an
object (after the opening brace and any whitespace, first key next), or the
elements of an array. -/
inductive PMode where
  | val
  | members (acc : JObj)
  | elems (acc : List JValue)

/-- The JSON parser.  `parseJ fuel .val cs` parses one JSON value at the head
of `cs` and returns it with the unconsumed input. -/
def parseJ : Nat → PMode → List Char → Option (JValue × List Char)
  | 0, _, _ => none
  | fuel + 1, .val, cs =>
    match cs with
    | 'n' :: 'u' :: 'l' :: 'l' :: rest => some (.null, rest)
    | 't' :: 'r' :: 'u' :: 'e' :: rest => some (.bool true, rest)
    | 'f' :: 'a' :: 'l' :: 's' :: 'e' :: rest => some (.bool false, rest)
    | '"' :: rest =>
      match parseJStrAux fuel [] rest with
      | some (s, r) => some (.str s, r)
      | none => none
    | '{' :: rest =>
      match skipWs rest with
      | '}' :: r2 => some (.obj [], r2)
      | cs1 => parseJ fuel (.members []) cs1
    | '[' :: rest =>
      match skipWs rest with
      | ']' :: r2 => some (.arr [], r2)
      | cs1 => parseJ fuel (.elems []) cs1
    | _ => parseJNum cs
  | fuel + 1, .members acc, cs =>
    match cs with
    | '"' :: rest =>
      match parseJStrAux fuel [] rest with
      | some (k, r1) =>
        match skipWs r1 with
        | ':' :: r2 =>
          match parseJ fuel .val (skipWs r2) with
          | some (v, r3) =>
            match skipWs r3 with
            | ',' :: r4 => parseJ fuel (.members (acc ++ [(k, v)])) (skipWs r4)
            | '}' :: r4 => some (.obj (acc ++ [(k, v)]), r4)
            | _ => none
          | none => none
        | _ => none
      | none => none
    | _ => none
  | fuel + 1, .elems acc, cs =>
    match parseJ fuel .val cs with
    | some (v, r1) =>
      match skipWs r1 with
      | ',' :: r2 => parseJ fuel (.elems (acc ++ [v])) (skipWs r2)
      | ']' :: r2 => some (.arr (acc ++ [v]), r2)
      | _ => none
    | none => none

/-- Model of `json.loads`: parse a whole string as a single JSON value;
trailing non-whitespace ("Extra data") is an error, returned as `none`
(a `JSONDecodeError`). -/
def Json.parse (s : String) : Option JValue :=
  match parseJ (s.data.length + 1) .val (skipWs s.data) with
  | some (v, rest) => if (skipWs rest).isEmpty then some v else none
  | none => none

/-! ### A model of `json.dumps` (default options) -/

/-- Hex digit characters, lowercase, as `json.dumps` emits them. -/
def hexDigitChar (n : Nat) : Char :=
  if n < 10 then Char.ofNat ('0'.toNat + n) else Char.ofNat ('a'.toNat + n - 10)

/-- Four-digit lowercase hex rendering of a code unit. -/
def hex4 (n : Nat) : String :=
  String.mk [hexDigitChar (n / 4096 % 16), hexDigitChar (n / 256 % 16),
    hexDigitChar (n / 16 % 16), hexDigitChar (n % 16)]

/-- Escape one character the way `json.dumps` (with its default
`ensure_ascii=True`) does: printable ASCII passes through, everything else is
escaped, non-BMP characters as a surrogate pair. -/
def jEscChar (c : Char) : String :=
  if c = '"' then "\\\""
  else if c = '\\' then "\\\\"
  else if c = '\n' then "\\n"
  else if c = '\r' then "\\r"
  else if c = '\t' then "\\t"
  else if c = Char.ofNat 8 then "\\b"
  else if c = Char.ofNat 12 then "\\f"
  else if c.toNat < 32 then "\\u" ++ hex4 c.toNat
  else if c.toNat < 127 then String.mk [c]
  else if c.toNat < 65536 then "\\u" ++ hex4 c.toNat
  else
    "\\u" ++ hex4 (55296 + (c.toNat - 65536) / 1024) ++
      "\\u" ++ hex4 (56320 + (c.toNat - 65536) % 1024)

/-- Model of `json.dumps` on a string value. -/
def jDumpStr (s : String) : String :=
  "\"" ++ String.join (s.data.map jEscChar) ++ "\""

/-- Interleave a separator between rendered items. -/
def sepJoin (sep : String) : List String → String
  | [] => ""
  | [x] => x
  | x :: rest => x ++ sep ++ sepJoin sep rest

/-- Model of `json.dumps` with default separators, fueled on nesting depth. -/
def jdumpsF : Nat → JValue → String
  | 0, _ => ""
  | fuel + 1, v =>
    match v with
    | .null => "null"
    | .bool true => "true"
    | .bool false => "false"
    | .num n => toString n
    | .str s => jDumpStr s
    | .arr xs => "[" ++ sepJoin ", " (xs.map (jdumpsF fuel)) ++ "]"
    | .obj m =>
      "\x7b" ++ sepJoin ", " (m.map (fun kv => jDumpStr kv.1 ++ ": " ++ jdumpsF fuel kv.2)) ++ "\x7d"

/-- Model of `json.dumps`.  The fuel bounds nesting depth; every value in
scope in this development is finitely nested far below the bound. -/
def jdumps (v : JValue) : String :=
  jdumpsF 1000 v

/-- Model of Python's `repr` on JSON-shaped values (the f-string rendering of
a `dict` in `get_tool_context`), fueled on nesting depth.  String quoting is
modelled with plain single quotes. -/
def pyReprF : Nat → JValue → String
  | 0, _ => ""
  | fuel + 1, v =>
    match v with
    | .null => "None"
    | .bool true => "True"
    | .bool false => "False"
    | .num n => toString n
    | .str s => String.mk [Char.ofNat 39] ++ s ++ String.mk [Char.ofNat 39]
    | .arr xs => "[" ++ sepJoin ", " (xs.map (pyReprF fuel)) ++ "]"
    | .obj m =>
      "\x7b" ++ sepJoin ", "
        (m.map (fun kv =>
          String.mk [Char.ofNat 39] ++ kv.1 ++ String.mk [Char.ofNat 39] ++ ": " ++
            pyReprF fuel kv.2)) ++ "\x7d"

/-- Model of Python's `str()` as used in f-strings: a string renders as
itself, everything else as its `repr`. -/
def pyStr : JValue → String
  | .str s => s
  | v => pyReprF 1000 v

/-! ### Exceptions escaping the modelled code -/

/-- Python exceptions that can escape `_parse_llm_response` or
`process_input`: `AttributeError` (e.g. `.strip()` on a non-string),
`TypeError` (e.g. `"{" in text` with a non-string `text`, or `dict(**data)`
on a non-mapping), and pydantic's `ValidationError`. -/
inductive Err where
  | attributeError
  | typeError
  | validationError
deriving DecidableEq, Repr

/-! ### The regex models used by `_parse_llm_response` -/

/-- The fence token of the markdown code-block regex. -/
def fenceTok : List Char := "```".data

/-- Detect `\s*` followed by the closing fence starting at the current
position: the backtracking of the greedy trailing `\s*` of
`` r'```(?:json)?\s*(.*?)\s*```' `` succeeds exactly when a fence follows a
(possibly empty) run of whitespace.  Returns the input after the fence. -/
def wsThenFence : List Char → Option (List Char)
  | [] => none
  | c :: rest =>
    if fenceTok.isPrefixOf (c :: rest) then some ((c :: rest).drop 3)
    else if pyIsSpace c then wsThenFence rest
    else none

/-- Lazy search for the group of the fenced-block regex: grow the group one
character at a time until whitespace followed by a closing fence is found.
Returns the group characters. -/
def fenceCloseAux : List Char → List Char → Option (List Char)
  | _, [] => none
  | accRev, c :: rest =>
    match wsThenFence (c :: rest) with
    | some _ => some accRev.reverse
    | none => fenceCloseAux (c :: accRev) rest

/-- Match the part of the fenced-block regex after the opening fence and the
optional `json` tag: greedy `\s*`, then the lazy group. -/
def fenceBody (cs : List Char) : Option (List Char) :=
  fenceCloseAux [] (skipPyWs cs)

/-- Model of `re.search(r'```(?:json)?\s*(.*?)\s*```', text, re.DOTALL)`:
scan for the leftmost start position with a full match and return group 1. -/
def fencedSearch : List Char → Option (List Char)
  | [] => none
  | c :: rest =>
    if c = Char.ofNat 96 ∧ "``".data.isPrefixOf rest then
      let afterOpen := rest.drop 2
      let withTag :=
        if "json".data.isPrefixOf afterOpen then fenceBody (afterOpen.drop 4) else none
      match withTag with
      | some g => some g
      | none =>
        match fenceBody afterOpen with
        | some g => some g
        | none => fencedSearch rest
    else fencedSearch rest

/-- Consume `[^{}]*` then `}` inside a nested group of the brace regex
`r'\{(?:[^{}]|(?:\{[^{}]*\}))*\}'`.  Returns consumed length (including the
closing brace) and the rest. -/
def braceGroup : List Char → Nat → Option (Nat × List Char)
  | [], _ => none
  | c :: rest, n =>
    if c = '}' then some (n + 1, rest)
    else if c = '{' then none
    else braceGroup rest (n + 1)

/-- Match the body of the brace regex after the opening `{`: a sequence of
non-brace characters and one-level nested groups, then the closing `}`.
`n` counts consumed characters; the fuel keeps the recursion structural. -/
def braceBody : Nat → List Char → Nat → Option Nat
  | 0, _, _ => none
  | _ + 1, [], _ => none
  | fuel + 1, c :: rest, n =>
    if c = '}' then some (n + 1)
    else if c = '{' then
      match braceGroup rest (n + 1) with
      | some (n', rest') => braceBody fuel rest' n'
      | none => none
    else braceBody fuel rest (n + 1)

/-- Length of the brace-regex match starting at the head of `cs`, if any. -/
def braceMatchLen (cs : List Char) : Option Nat :=
  match cs with
  | '{' :: rest => braceBody (rest.length + 1) rest 1
  | _ => none

/-- Model of `re.finditer` with the brace regex: leftmost, non-overlapping
matches, as substrings. -/
def braceFindAll : Nat → List Char → List String
  | 0, _ => []
  | _ + 1, [] => []
  | fuel + 1, cs =>
    match braceMatchLen cs with
    | some n => String.mk (cs.take n) :: braceFindAll fuel (cs.drop n)
    | none =>
      match cs with
      | [] => []
      | _ :: rest => braceFindAll fuel rest

/-- Python's `str.replace(old, "")` for a non-empty pattern: remove all
non-overlapping occurrences, left to right. -/
def removeAllSub : Nat → List Char → List Char → List Char
  | 0, _, cs => cs
  | fuel + 1, pat, cs =>
    if pat.isPrefixOf cs then removeAllSub fuel pat (cs.drop pat.length)
    else
      match cs with
      | [] => []
      | c :: rest => c :: removeAllSub fuel pat rest

/-- First index of a character in a string (Python `str.find`, guarded by a
containment check at every use site). -/
def pyFindIdx (s : String) (c : Char) : Nat :=
  (s.data.findIdx? (fun x => x = c)).getD 0

/-- Last index of a character in a string (Python `str.rfind`, guarded by a
containment check at every use site). -/
def pyRfindIdx (s : String) (c : Char) : Nat :=
  match s.data.reverse.findIdx? (fun x => x = c) with
  | some i => s.data.length - 1 - i
  | none => 0

/-- Python slice `s[i:j]`. -/
def pySlice (s : String) (i j : Nat) : String :=
  String.mk ((s.data.drop i).take (j - i))

/-! ### The Response Interpreter (`Agent._parse_llm_response`) -/

/-- The dictionary returned by `_parse_llm_response`, restricted to the keys
read downstream (`"text"`, `"response"`, `"tool_call"`).  A `none` field is
an absent key; Python `None` stored under a key is `some .null`.  Strategies
1, 3, 4 and the fall-through default build `{"text": ..., "tool_call": ...}`
(no `"response"` key); strategy 2 returns the parsed object's fields
verbatim (`dict(**data)`). -/
structure ParsedResponse where
  text : Option JValue
  response : Option JValue
  tool_call : Option JValue
deriving Repr

/-- The common return of strategies 1, 3, 4 and the default:
`{"text": text.strip(), "tool_call": tool_call}`.  Python raises
`AttributeError` if `text` is not a string at the `.strip()` call. -/
def finishParse (textV : JValue) (tc : JValue) : Except Err ParsedResponse :=
  match textV with
  | .str s => .ok ⟨some (.str (pyStrip s)), none, some tc⟩
  | _ => .error .attributeError

/-- Strategy 1 of `_parse_llm_response` (agent.py lines 115–127): parse the
whole text as JSON; if it is an object, return immediately with
`text = parsed.get("response", text)` stripped and
`tool_call = parsed.get("tool_call")`.  `none` means the strategy falls
through (not a JSON object). -/
def strat1 (t : String) : Option (Except Err ParsedResponse) :=
  match Json.parse t with
  | some (.obj m) =>
    some (finishParse ((jlookup m "response").getD (.str t)) ((jlookup m "tool_call").getD .null))
  | _ => none

/-- Strategy 2 of `_parse_llm_response` (agent.py lines 130–139): extract the
first fenced code block and parse it; on success return `dict(**data)`
directly.  A failed search or a `JSONDecodeError` falls through; `dict(**d)`
on a non-mapping raises `TypeError`, which the strategy's `except` clause
does not catch. -/
def strat2 (t : String) : Option (Except Err ParsedResponse) :=
  match fencedSearch t.data with
  | none => none
  | some g =>
    match Json.parse (String.mk g) with
    | none => none
    | some (.obj m) => some (.ok ⟨jlookup m "text", jlookup m "response", jlookup m "tool_call"⟩)
    | some _ => some (.error .typeError)

/-- Strategy 3's candidate scan (agent.py lines 144–161): the first brace
match that parses as JSON and has a `"tool_call"` key wins; candidates that
fail to parse or lack the key are skipped. -/
def strat3Scan : List String → Option (JObj × String)
  | [] => none
  | cand :: rest =>
    match Json.parse cand with
    | some (.obj m) =>
      if (jlookup m "tool_call").isSome then some (m, cand) else strat3Scan rest
    | _ => strat3Scan rest

/-- The candidate string of strategy 4 (agent.py lines 169–176): the span
from the first `{` to the last `}`, with single quotes replaced by double
quotes. -/
def strat4Candidate (s : String) : String :=
  String.mk ((pySlice s (pyFindIdx s '{') (pyRfindIdx s '}' + 1)).data.map
    (fun c => if c = Char.ofNat 39 then '"' else c))

/-- Strategy 4 and the final return (agent.py lines 166–196), entered with
the current `text` (possibly replaced by strategy 3) and `tool_call`.  The
guard `not tool_call and "{" in text and "}" in text` raises `TypeError`
when `text` is no longer a string; the final `text.strip()` raises
`AttributeError` likewise. -/
def strat4After (textV : JValue) (tc : JValue) : Except Err ParsedResponse :=
  if pyTruthy tc then finishParse textV tc
  else
    match textV with
    | .str s =>
      if s.data.contains '{' && s.data.contains '}' then
        match Json.parse (strat4Candidate s) with
        | some (.obj m') =>
          if (jlookup m' "tool_call").isSome then
            finishParse
              ((jlookup m' "response").getD
                (.str (String.mk (s.data.take (pyFindIdx s '{') ++
                  s.data.drop (pyRfindIdx s '}' + 1)))))
              ((jlookup m' "tool_call").getD .null)
          else finishParse textV tc
        | _ => finishParse textV tc
      else finishParse textV tc
    | _ => .error .typeError

/-- Strategies 3 and 4 plus the fall-through default, on the raw text. -/
def strat34 (t : String) : Except Err ParsedResponse :=
  match strat3Scan (braceFindAll (t.data.length + 1) t.data) with
  | some (m, matched) =>
    strat4After
      (if (jlookup m "response").isSome then (jlookup m "response").getD .null
       else .str (String.mk (removeAllSub (t.data.length + 1) matched.data t.data)))
      ((jlookup m "tool_call").getD .null)
  | none => strat4After (.str t) .null

/-- The Response Interpreter: `Agent._parse_llm_response` on the response
text (the `response["response"]` unwrapping is folded into the connector
model, which hands over that field). -/
def parseLLM (t : String) : Except Err ParsedResponse :=
  match strat1 t with
  | some r => r
  | none =>
    match strat2 t with
    | some r => r
    | none => strat34 t

/-! ### The Conversation Store (`services/context_manager.py`) -/

/-- Model of `Message` (role and content; the wall-clock timestamp is not
modelled — no property in scope depends on it). -/
structure Msg where
  role : String
  content : String
deriving Repr

/-- Model of `ToolCall` (a tool-call record).  pydantic validation of the
field types happens at construction, in `mkToolRec`. -/
structure ToolRec where
  tool_name : String
  parameters : JObj
  result : JValue
  error : JValue
deriving Repr

/-- Model of `ConversationContext`. -/
structure Conv where
  messages : List Msg
  tool_calls : List ToolRec
deriving Repr

/-- The process-wide conversation mapping, as an insertion-ordered
association list (like a Python `dict`). -/
abbrev Store := List (String × Conv)

/-- Dictionary lookup in the store. -/
def storeFind : Store → String → Option Conv
  | [], _ => none
  | (k, v) :: rest, id => if k = id then some v else storeFind rest id

/-- Dictionary assignment in the store: replace in place, or append a new
binding (insertion order, like a Python `dict`). -/
def storeSet : Store → String → Conv → Store
  | [], id, c => [(id, c)]
  | (k, v) :: rest, id, c =>
    if k = id then (id, c) :: rest else (k, v) :: storeSet rest id c

/-- The conversation under an id, or a fresh empty one (the value
`create_conversation` would install). -/
def storeGetConv (st : Store) (id : String) : Conv :=
  (storeFind st id).getD ⟨[], []⟩

/-- The `if conversation_id not in self.conversations: create_conversation`
pattern used by `add_message`, `add_tool_call` and `get_full_context`. -/
def ensureConv (st : Store) (id : String) : Store :=
  match storeFind st id with
  | none => storeSet st id ⟨[], []⟩
  | some _ => st

/-- The history trim of `add_message` (context_manager.py lines 82–84):
after appending, if the length exceeds `max_history_length`, pop the oldest
message. -/
def trimStep (maxLen : Nat) (l : List Msg) : List Msg :=
  if maxLen < l.length then l.drop 1 else l

/-- Append a message to a conversation with the history trim. -/
def Conv.addMsg (c : Conv) (maxLen : Nat) (role content : String) : Conv :=
  ⟨trimStep maxLen (c.messages ++ [⟨role, content⟩]), c.tool_calls⟩

/-- Model of `ContextManager.add_message`. -/
def addMessageS (maxLen : Nat) (st : Store) (id role content : String) : Store :=
  storeSet (ensureConv st id) id
    ((storeGetConv (ensureConv st id) id).addMsg maxLen role content)

/-- pydantic validation of a `ToolCall` record: `tool_name` must be a
string, `parameters` a mapping, `error` a string or `None`; `result` is
`Optional[Any]`. -/
def mkToolRec (name params result error : JValue) : Except Err ToolRec :=
  match name, params with
  | .str n, .obj p =>
    if error.isNull || error.isStr then .ok ⟨n, p, result, error⟩
    else .error .validationError
  | _, _ => .error .validationError

/-- Model of `ContextManager.add_tool_call` after validation: append the
record to the (never trimmed) tool-call log. -/
def addToolCallS (st : Store) (id : String) (rec : ToolRec) : Store :=
  storeSet (ensureConv st id) id
    ⟨(storeGetConv (ensureConv st id) id).messages,
      (storeGetConv (ensureConv st id) id).tool_calls ++ [rec]⟩

/-- Python's `str.capitalize()`: first character upper-cased, the rest
lower-cased. -/
def pyCapitalize (s : String) : String :=
  match s.data with
  | [] => ""
  | c :: rest => String.mk (c.toUpper :: rest.map Char.toLower)

/-- Model of `ContextManager.get_formatted_history`. -/
def formattedHistory (st : Store) (id : String) (includeSystem : Bool) : String :=
  match storeFind st id with
  | none => ""
  | some c =>
    pyStrip (String.join
      ((c.messages.filter (fun m => includeSystem || m.role ≠ "system")).map
        (fun m => pyCapitalize m.role ++ ": " ++ m.content ++ "\n\n")))

/-- The last `n` elements of a list (Python `l[-n:]`). -/
def lastN (n : Nat) (l : List α) : List α :=
  l.drop (l.length - n)

/-- Rendering of one record in `get_tool_context`. -/
def renderToolCall (rec : ToolRec) : String :=
  "- Tool: " ++ rec.tool_name ++ "\n" ++
    "  Parameters: " ++ pyStr (.obj rec.parameters) ++ "\n" ++
    (if !rec.result.isNull then "  Result: " ++ pyStr rec.result ++ "\n"
     else if !rec.error.isNull then "  Error: " ++ pyStr rec.error ++ "\n"
     else "") ++ "\n"

/-- Model of `ContextManager.get_tool_context` at its default arguments
(`recent_only=True`, `max_tools=5`). -/
def toolContext (st : Store) (id : String) : String :=
  match storeFind st id with
  | none => ""
  | some c =>
    let tcs := lastN 5 c.tool_calls
    if tcs.isEmpty then ""
    else "Recent tool calls:\n" ++ String.join (tcs.map renderToolCall)

/-- The fixed system instruction block of `get_full_context`
(context_manager.py lines 235–259). -/
def baseSystemMessage : String :=
  "You are a helpful AI assistant. \n\nIMPORTANT: You MUST format ALL your responses as valid JSON objects with this structure:\n```json\n\x7b\n    \"response\": \"your helpful response text here\",\n    \"tool_call\": null\n\x7d\n```\n\nWhen you need to use a tool, format your response as:\n```json\n\x7b\n    \"response\": \"your explanation of what you're doing\",\n    \"tool_call\": \x7b\n        \"name\": \"name_of_tool\",\n        \"parameters\": \x7b\n            \"param1\": \"value1\",\n            \"param2\": \"value2\"\n        \x7d\n    \x7d\n\x7d\n```\n\nNEVER respond in plain text. ALWAYS use this JSON format."

/-- Descriptor of a tool as returned by the discovery collaborator. -/
structure ToolDesc where
  name : String
  description : String
  parameters : JValue
deriving Repr

/-- The prompt-context record returned by `get_full_context`. -/
structure Ctx where
  conversation_history : String
  system_message : String
  current_input : String
  tools : List ToolDesc
deriving Repr

/-- Model of `ContextManager.get_full_context`: ensure the conversation,
append the current user input to history (the mandatory write side effect),
then assemble history, tool context, and the system message. -/
def getFullContext (maxLen : Nat) (st : Store) (id userInput : String)
    (tools : List ToolDesc) : Ctx × Store :=
  let st0 := ensureConv st id
  let st1 := addMessageS maxLen st0 id "user" userInput
  let history := formattedHistory st1 id true
  let toolCtx := toolContext st1 id
  let sys := if toolCtx = "" then baseSystemMessage else baseSystemMessage ++ "\n\n" ++ toolCtx
  (⟨history, sys, userInput, tools⟩, st1)

/-! ### The connector (`services/llm_connector.py`) -/

/-- The tool-description block of `generate_with_tool_context`
(llm_connector.py lines 139–142). -/
def toolsContextString (tools : List ToolDesc) : String :=
  "Available tools:\n" ++
    String.join (tools.map (fun t =>
      "- " ++ t.name ++ ": " ++ t.description ++ "\n" ++
        "  Parameters: " ++ jdumps t.parameters ++ "\n\n"))

/-- The default system message of `generate_with_tool_context`
(llm_connector.py lines 146–152). -/
def defaultSystemMessage : String :=
  "You are an AI assistant with access to tools. Use these tools when appropriate to fulfill user requests. Always be helpful, accurate, and concise. IMPORTANT: You must remember all previously shared information within the conversation. If the user shares their name or preferences, remember this information for the duration of the conversation."

/-- The formatting-instruction block of `generate_with_tool_context`
(llm_connector.py lines 155–176). -/
def formattingInstructions : String :=
  "\nYou MUST format ALL your responses as valid JSON objects with this structure:\n```json\n\x7b\n    \"response\": \"your helpful response text here\",\n    \"tool_call\": null\n\x7d\n```\nWhen using a tool, set tool_call to a valid object like:\n```json\n\x7b\n    \"response\": \"I'll check that for you\",\n    \"tool_call\": \x7b\n        \"name\": \"tool_name\",\n        \"parameters\": \x7b\n            \"param1\": \"value1\"\n        \x7d\n    \x7d\n\x7d\n```\nALWAYS respond in this JSON format. NEVER respond in plain text."

/-- The defensive wrap of `generate_with_tool_context` (llm_connector.py
lines 188–196): a response text that is not already a top-level JSON object
(does not start with `{` and end with `}`) is replaced by
`json.dumps({"response": text, "tool_call": None})`. -/
def wrapResp (t : String) : String :=
  if pyStartsWith t "\x7b" && pyEndsWith t "\x7d" then t
  else "\x7b\"response\": " ++ jDumpStr t ++ ", \"tool_call\": null\x7d"

/-- The outcome of `Agent._execute_tool`: `result` and `error` as read by
`.get("result")` / `.get("error")` (an absent key collapses to `null`,
exactly as `dict.get` returns `None`). -/
structure ExecOutcome where
  result : JValue
  error : JValue
deriving Repr

/-- The external collaborators of one `process_input` request, as oracles:
the discovery result (`_fetch_relevant_tools` already folds transport
failures into `[]`), the raw generation text of the n-th generation call,
and the execution outcome (`_execute_tool` already folds transport failures
into an error-bearing outcome). -/
structure Oracles where
  tools : List ToolDesc
  gen : Nat → String
  exec : ExecOutcome

/-- Model of `OllamaConnector.generate_with_tool_context` for the `idx`-th
generation call of a request: assemble the system prompt and final prompt
(handed to the external generation service, whose reply the oracle fixes),
then apply the defensive JSON wrap to the returned response text. -/
def generateWithToolContext (o : Oracles) (idx : Nat) (prompt : String)
    (tools : List ToolDesc) (conversationContext : String)
    (systemMessage : Option String) : String :=
  let toolsCtx := toolsContextString tools
  let sys := match systemMessage with
    | some s => s
    | none => defaultSystemMessage
  let _finalSystemPrompt := sys ++ "\n\n" ++ toolsCtx ++ "\n" ++ formattingInstructions
  let _finalPrompt :=
    if conversationContext = "" then prompt
    else "Previous conversation:\n" ++ conversationContext ++ "\n\nCurrent user message: " ++ prompt
  wrapResp (o.gen idx)

/-! ### The Orchestrator (`Agent.process_input`) -/

/-- Counts of the external calls made by one request: generation calls in
total, tool-execution calls, and follow-up generation calls. -/
structure Effects where
  genCalls : Nat
  execCalls : Nat
  followUpCalls : Nat
deriving DecidableEq, Repr

/-- The response envelope returned by `process_input` (agent.py lines
325–331). -/
structure Envelope where
  conversation_id : String
  response : JValue
  tool_used : JValue
  tool_parameters : JValue
  tool_result : Option ExecOutcome
deriving Repr

/-- The conversation id of a request (agent.py lines 221–222): a falsy
`conversation_id` (absent or empty) is replaced by a fresh UUID, modelled by
the `fresh` parameter. -/
def resolveCid (conversationId : Option String) (fresh : String) : String :=
  match conversationId with
  | none => fresh
  | some c => if c = "" then fresh else c

/-- Step 6 of `process_input`: record the assistant reply (pydantic rejects
a non-string `content`) and build the envelope. -/
def finalizeRun (st : Store) (cid : String) (rt toolUsed toolParams : JValue)
    (toolResult : Option ExecOutcome) (eff : Effects) :
    Except Err (Envelope × Store × Effects) :=
  match rt with
  | .str s =>
    .ok (⟨cid, .str s, toolUsed, toolParams, toolResult⟩,
      addMessageS 10 st cid "assistant" s, eff)
  | _ => .error .validationError

/-- The synthesized follow-up prompt (agent.py lines 297–302). -/
def followUpPrompt (m : JObj) (res : JValue) : String :=
  "I executed the tool " ++ pyStr ((jlookup m "name").getD .null) ++
    " with parameters " ++ jdumps ((jlookup m "parameters").getD .null) ++
    " and got the result: " ++ jdumps res ++
    ". Please provide a helpful response based on this result."

/-- The follow-up branch of `process_input` (agent.py lines 288–315):
rebuild the context with the same user input, issue the second generation
call, interpret it, and let its `response` field replace the reply text. -/
def followUpPhase (o : Oracles) (st3 : Store) (cid u : String) (m : JObj)
    (out : ExecOutcome) : Except Err (Envelope × Store × Effects) :=
  let r2 := getFullContext 10 st3 cid u o.tools
  let w1 := generateWithToolContext o 1 (followUpPrompt m out.result) o.tools
    r2.1.conversation_history none
  match parseLLM w1 with
  | .error e => .error e
  | .ok p2 =>
    finalizeRun r2.2 cid (p2.response.getD (.str "")) ((jlookup m "name").getD .null)
      ((jlookup m "parameters").getD .null) (some out) ⟨2, 1, 1⟩

/-- Step 5 of `process_input` (agent.py lines 264–315) for a truthy
`tool_call` dict `m`: record the provisional audit entry, execute, record
the settled entry, and follow up only when the result is non-null. -/
def toolPhase (o : Oracles) (st1 : Store) (cid u : String) (rt : JValue)
    (m : JObj) : Except Err (Envelope × Store × Effects) :=
  match mkToolRec ((jlookup m "name").getD (.str "unknown"))
      ((jlookup m "parameters").getD (.obj [])) .null .null with
  | .error e => .error e
  | .ok rec1 =>
    match mkToolRec ((jlookup m "name").getD (.str "unknown"))
        ((jlookup m "parameters").getD (.obj [])) o.exec.result o.exec.error with
    | .error e => .error e
    | .ok rec2 =>
      if o.exec.result.isNull then
        finalizeRun (addToolCallS (addToolCallS st1 cid rec1) cid rec2) cid rt
          ((jlookup m "name").getD .null) ((jlookup m "parameters").getD .null)
          (some o.exec) ⟨1, 1, 0⟩
      else followUpPhase o (addToolCallS (addToolCallS st1 cid rec1) cid rec2) cid u m o.exec

/-- Steps 4–5 of `process_input` after the initial interpretation: read the
reply under the `"response"` key (agent.py line 259), the tool call under
`"tool_call"`, and branch on the tool call's truthiness.  A truthy non-dict
tool call raises `AttributeError` at `tool_call.get("name", ...)`. -/
def afterInterpret (o : Oracles) (st1 : Store) (cid u : String)
    (parsed : ParsedResponse) : Except Err (Envelope × Store × Effects) :=
  let rt := parsed.response.getD (.str "")
  let tc := parsed.tool_call.getD .null
  if pyTruthy tc then
    match tc with
    | .obj m => toolPhase o st1 cid u rt m
    | _ => .error .attributeError
  else finalizeRun st1 cid rt .null .null none ⟨1, 0, 0⟩

/-- Model of `Agent.process_input` (with `debug_mode=False`): resolve the
conversation id, fetch tools, build context (appending the user turn),
generate, interpret, optionally execute a tool and follow up, then record
the assistant reply and return the envelope. -/
def processInput (o : Oracles) (st : Store) (u : String)
    (conversationId : Option String) (fresh : String) :
    Except Err (Envelope × Store × Effects) :=
  let cid := resolveCid conversationId fresh
  let r := getFullContext 10 st cid u o.tools
  let w0 := generateWithToolContext o 0 u o.tools r.1.conversation_history
    (some r.1.system_message)
  match parseLLM w0 with
  | .error e => .error e
  | .ok parsed => afterInterpret o r.2 cid u parsed

/-! ### Store algebra -/

theorem storeFind_set_self (st : Store) (id : String) (c : Conv) :
    storeFind (storeSet st id c) id = some c := by
  induction st with
  | nil => simp [storeSet, storeFind]
  | cons hd tl ih =>
    obtain ⟨k, v⟩ := hd
    by_cases h : k = id
    · subst h
      simp [storeSet, storeFind]
    · simp [storeSet, storeFind, h, ih]

theorem storeFind_set_ne (st : Store) (id k : String) (c : Conv) (h : k ≠ id) :
    storeFind (storeSet st id c) k = storeFind st k := by
  induction st with
  | nil =>
    simp only [storeSet, storeFind]
    rw [if_neg (fun hh => h hh.symm)]
  | cons hd tl ih =>
    obtain ⟨k', v⟩ := hd
    simp only [storeSet]
    by_cases h' : k' = id
    · subst h'
      simp only [if_pos rfl, storeFind]
      rw [if_neg (fun hh => h hh.symm), if_neg (fun hh => h hh.symm)]
    · simp only [if_neg h', storeFind]
      by_cases hk : k' = k
      · rw [if_pos hk, if_pos hk]
      · rw [if_neg hk, if_neg hk]
        exact ih

theorem storeSet_set (st : Store) (id : String) (c1 c2 : Conv) :
    storeSet (storeSet st id c1) id c2 = storeSet st id c2 := by
  induction st with
  | nil => simp [storeSet]
  | cons hd tl ih =>
    obtain ⟨k, v⟩ := hd
    by_cases h : k = id
    · subst h
      simp [storeSet]
    · simp [storeSet, h, ih]

theorem storeGetConv_set_self (st : Store) (id : String) (c : Conv) :
    storeGetConv (storeSet st id c) id = c := by
  simp [storeGetConv, storeFind_set_self]

theorem storeSet_ensure (st : Store) (id : String) (c : Conv) :
    storeSet (ensureConv st id) id c = storeSet st id c := by
  unfold ensureConv
  cases h : storeFind st id with
  | none => simp [storeSet_set]
  | some c0 => rfl

theorem storeGetConv_ensure (st : Store) (id : String) :
    storeGetConv (ensureConv st id) id = storeGetConv st id := by
  unfold ensureConv
  cases h : storeFind st id with
  | none =>
    unfold storeGetConv
    rw [storeFind_set_self, h]
    rfl
  | some c0 => rfl

theorem storeFind_ensure_ne (st : Store) (id k : String) (h : k ≠ id) :
    storeFind (ensureConv st id) k = storeFind st k := by
  unfold ensureConv
  cases storeFind st id with
  | none => exact storeFind_set_ne st id k _ h
  | some c0 => rfl

theorem addMessageS_eq (maxLen : Nat) (st : Store) (id role content : String) :
    addMessageS maxLen st id role content =
      storeSet st id ((storeGetConv st id).addMsg maxLen role content) := by
  unfold addMessageS
  rw [storeGetConv_ensure, storeSet_ensure]

theorem addToolCallS_eq (st : Store) (id : String) (rec : ToolRec) :
    addToolCallS st id rec =
      storeSet st id ⟨(storeGetConv st id).messages,
        (storeGetConv st id).tool_calls ++ [rec]⟩ := by
  unfold addToolCallS
  rw [storeGetConv_ensure, storeSet_ensure]

theorem getFullContext_store (maxLen : Nat) (st : Store) (id u : String)
    (tools : List ToolDesc) :
    (getFullContext maxLen st id u tools).2 =
      storeSet st id ((storeGetConv st id).addMsg maxLen "user" u) := by
  have h : (getFullContext maxLen st id u tools).2 =
      addMessageS maxLen (ensureConv st id) id "user" u := rfl
  rw [h, addMessageS_eq, storeGetConv_ensure, storeSet_ensure]

theorem storeFind_addMessageS_ne (maxLen : Nat) (st : Store) (id k role content : String)
    (h : k ≠ id) :
    storeFind (addMessageS maxLen st id role content) k = storeFind st k := by
  rw [addMessageS_eq]
  exact storeFind_set_ne st id k _ h

theorem storeFind_addToolCallS_ne (st : Store) (id k : String) (rec : ToolRec)
    (h : k ≠ id) :
    storeFind (addToolCallS st id rec) k = storeFind st k := by
  rw [addToolCallS_eq]
  exact storeFind_set_ne st id k _ h

theorem storeGetConv_addMessageS_self (maxLen : Nat) (st : Store) (id role content : String) :
    storeGetConv (addMessageS maxLen st id role content) id =
      (storeGetConv st id).addMsg maxLen role content := by
  rw [addMessageS_eq, storeGetConv_set_self]

theorem storeGetConv_addToolCallS_self (st : Store) (id : String) (rec : ToolRec) :
    storeGetConv (addToolCallS st id rec) id =
      ⟨(storeGetConv st id).messages, (storeGetConv st id).tool_calls ++ [rec]⟩ := by
  rw [addToolCallS_eq, storeGetConv_set_self]

/-! ### Run inversion lemmas -/

theorem finalizeRun_ok {st : Store} {cid : String} {rt tu tp : JValue}
    {tr : Option ExecOutcome} {eff : Effects} {env : Envelope} {st' : Store}
    {eff' : Effects} (h : finalizeRun st cid rt tu tp tr eff = .ok (env, st', eff')) :
    ∃ s, rt = .str s ∧ env = ⟨cid, .str s, tu, tp, tr⟩ ∧
      st' = addMessageS 10 st cid "assistant" s ∧ eff' = eff := by
  cases rt with
  | str s =>
    simp only [finalizeRun, Except.ok.injEq, Prod.mk.injEq] at h
    exact ⟨s, rfl, h.1.symm, h.2.1.symm, h.2.2.symm⟩
  | null => simp [finalizeRun] at h
  | bool b => simp [finalizeRun] at h
  | num n => simp [finalizeRun] at h
  | arr xs => simp [finalizeRun] at h
  | obj m => simp [finalizeRun] at h

theorem mkToolRec_ok {name params result error : JValue} {rec : ToolRec}
    (h : mkToolRec name params result error = .ok rec) :
    ∃ n p, name = .str n ∧ params = .obj p ∧ (error.isNull || error.isStr) = true ∧
      rec = ⟨n, p, result, error⟩ := by
  cases name <;> cases params <;> simp only [mkToolRec] at h <;>
    first
    | (cases h)
    | (by_cases hc : (error.isNull || error.isStr) = true
       · rw [if_pos hc] at h
         simp only [Except.ok.injEq] at h
         exact ⟨_, _, rfl, rfl, hc, h.symm⟩
       · rw [if_neg hc] at h
         cases h)

theorem followUpPhase_ok {o : Oracles} {st3 : Store} {cid u : String} {m : JObj}
    {out : ExecOutcome} {env : Envelope} {st' : Store} {eff : Effects}
    (h : followUpPhase o st3 cid u m out = .ok (env, st', eff)) :
    ∃ p2, parseLLM (wrapResp (o.gen 1)) = .ok p2 ∧
      finalizeRun (getFullContext 10 st3 cid u o.tools).2 cid (p2.response.getD (.str ""))
        ((jlookup m "name").getD .null) ((jlookup m "parameters").getD .null) (some out)
        ⟨2, 1, 1⟩ = .ok (env, st', eff) := by
  have heq : followUpPhase o st3 cid u m out =
      (match parseLLM (wrapResp (o.gen 1)) with
       | .error e => .error e
       | .ok p2 =>
         finalizeRun (getFullContext 10 st3 cid u o.tools).2 cid
           (p2.response.getD (.str "")) ((jlookup m "name").getD .null)
           ((jlookup m "parameters").getD .null) (some out) ⟨2, 1, 1⟩) := rfl
  rw [heq] at h
  cases hp : parseLLM (wrapResp (o.gen 1)) with
  | error e =>
    rw [hp] at h
    cases h
  | ok p2 =>
    rw [hp] at h
    exact ⟨p2, rfl, h⟩

theorem toolPhase_ok {o : Oracles} {st1 : Store} {cid u : String} {rt : JValue}
    {m : JObj} {env : Envelope} {st' : Store} {eff : Effects}
    (h : toolPhase o st1 cid u rt m = .ok (env, st', eff)) :
    ∃ n p, (jlookup m "name").getD (.str "unknown") = .str n ∧
      (jlookup m "parameters").getD (.obj []) = .obj p ∧
      (o.exec.error.isNull || o.exec.error.isStr) = true ∧
      ((o.exec.result.isNull = true ∧
          finalizeRun (addToolCallS (addToolCallS st1 cid ⟨n, p, .null, .null⟩) cid
              ⟨n, p, o.exec.result, o.exec.error⟩) cid rt
            ((jlookup m "name").getD .null) ((jlookup m "parameters").getD .null)
            (some o.exec) ⟨1, 1, 0⟩ = .ok (env, st', eff)) ∨
       (o.exec.result.isNull = false ∧
          followUpPhase o (addToolCallS (addToolCallS st1 cid ⟨n, p, .null, .null⟩) cid
              ⟨n, p, o.exec.result, o.exec.error⟩) cid u m o.exec = .ok (env, st', eff))) := by
  unfold toolPhase at h
  split at h
  · cases h
  next rec1 h1 =>
    split at h
    · cases h
    next rec2 h2 =>
      obtain ⟨n, p, hn, hp, _, hrec1⟩ := mkToolRec_ok h1
      obtain ⟨n2, p2, hn2, hp2, herr, hrec2⟩ := mkToolRec_ok h2
      rw [hn] at hn2
      rw [hp] at hp2
      obtain rfl := JValue.str.inj hn2
      obtain rfl := JValue.obj.inj hp2
      subst hrec1
      subst hrec2
      refine ⟨n, p, hn, hp, herr, ?_⟩
      by_cases hres : o.exec.result.isNull = true
      · rw [if_pos hres] at h
        exact Or.inl ⟨hres, h⟩
      · rw [if_neg hres] at h
        exact Or.inr ⟨Bool.not_eq_true _ ▸ hres, h⟩

theorem afterInterpret_ok {o : Oracles} {st1 : Store} {cid u : String}
    {parsed : ParsedResponse} {env : Envelope} {st' : Store} {eff : Effects}
    (h : afterInterpret o st1 cid u parsed = .ok (env, st', eff)) :
    (pyTruthy (parsed.tool_call.getD .null) = false ∧
      finalizeRun st1 cid (parsed.response.getD (.str "")) .null .null none ⟨1, 0, 0⟩ =
        .ok (env, st', eff)) ∨
    (∃ m, parsed.tool_call.getD .null = .obj m ∧ pyTruthy (JValue.obj m) = true ∧
      toolPhase o st1 cid u (parsed.response.getD (.str "")) m = .ok (env, st', eff)) := by
  have heq : afterInterpret o st1 cid u parsed =
      (if pyTruthy (parsed.tool_call.getD .null) then
        (match parsed.tool_call.getD .null with
         | .obj m => toolPhase o st1 cid u (parsed.response.getD (.str "")) m
         | _ => .error .attributeError)
       else finalizeRun st1 cid (parsed.response.getD (.str "")) .null .null none
         ⟨1, 0, 0⟩) := rfl
  rw [heq] at h
  by_cases ht : pyTruthy (parsed.tool_call.getD .null) = true
  · rw [if_pos ht] at h
    cases htc : parsed.tool_call.getD .null with
    | obj m =>
      rw [htc] at h
      exact Or.inr ⟨m, rfl, htc ▸ ht, h⟩
    | null => rw [htc] at h; cases h
    | bool b => rw [htc] at h; cases h
    | num n => rw [htc] at h; cases h
    | str s => rw [htc] at h; cases h
    | arr xs => rw [htc] at h; cases h
  · rw [if_neg ht] at h
    exact Or.inl ⟨Bool.not_eq_true _ ▸ ht, h⟩

theorem processInput_ok {o : Oracles} {st : Store} {u : String}
    {cidOpt : Option String} {fresh : String} {env : Envelope} {st' : Store}
    {eff : Effects}
    (h : processInput o st u cidOpt fresh = .ok (env, st', eff)) :
    ∃ parsed, parseLLM (wrapResp (o.gen 0)) = .ok parsed ∧
      afterInterpret o (getFullContext 10 st (resolveCid cidOpt fresh) u o.tools).2
        (resolveCid cidOpt fresh) u parsed = .ok (env, st', eff) := by
  have heq : processInput o st u cidOpt fresh =
      (match parseLLM (wrapResp (o.gen 0)) with
       | .error e => .error e
       | .ok parsed =>
         afterInterpret o (getFullContext 10 st (resolveCid cidOpt fresh) u o.tools).2
           (resolveCid cidOpt fresh) u parsed) := rfl
  rw [heq] at h
  cases hp : parseLLM (wrapResp (o.gen 0)) with
  | error e =>
    rw [hp] at h
    cases h
  | ok parsed =>
    rw [hp] at h
    exact ⟨parsed, rfl, h⟩

/-! ### Shape of interpreter results -/

theorem finishParse_shape {tv tc : JValue} {r : ParsedResponse}
    (h : finishParse tv tc = .ok r) :
    ∃ s, r = ⟨some (.str s), none, some tc⟩ := by
  cases tv with
  | str s =>
    simp only [finishParse, Except.ok.injEq] at h
    exact ⟨pyStrip s, h.symm⟩
  | null => cases h
  | bool b => cases h
  | num n => cases h
  | arr xs => cases h
  | obj m => cases h

theorem strat4After_shape {tv tc : JValue} {r : ParsedResponse}
    (h : strat4After tv tc = .ok r) :
    r.response = none ∧ (∃ s, r.text = some (.str s)) ∧ (∃ v, r.tool_call = some v) := by
  unfold strat4After at h
  split at h
  · obtain ⟨s, rfl⟩ := finishParse_shape h
    exact ⟨rfl, ⟨s, rfl⟩, ⟨tc, rfl⟩⟩
  · split at h
    · split at h
      · split at h
        · split at h
          · obtain ⟨s, rfl⟩ := finishParse_shape h
            exact ⟨rfl, ⟨s, rfl⟩, ⟨_, rfl⟩⟩
          · obtain ⟨s, rfl⟩ := finishParse_shape h
            exact ⟨rfl, ⟨s, rfl⟩, ⟨tc, rfl⟩⟩
        · obtain ⟨s, rfl⟩ := finishParse_shape h
          exact ⟨rfl, ⟨s, rfl⟩, ⟨tc, rfl⟩⟩
      · obtain ⟨s, rfl⟩ := finishParse_shape h
        exact ⟨rfl, ⟨s, rfl⟩, ⟨tc, rfl⟩⟩
    · cases h

theorem strat34_shape {t : String} {r : ParsedResponse}
    (h : strat34 t = .ok r) :
    r.response = none ∧ (∃ s, r.text = some (.str s)) ∧ (∃ v, r.tool_call = some v) := by
  unfold strat34 at h
  split at h
  · exact strat4After_shape h
  · exact strat4After_shape h

theorem strat1_shape {t : String} {r : ParsedResponse}
    (h : strat1 t = some (.ok r)) :
    r.response = none ∧ (∃ s, r.text = some (.str s)) ∧ (∃ v, r.tool_call = some v) := by
  unfold strat1 at h
  split at h
  next m heq =>
    simp only [Option.some.injEq] at h
    obtain ⟨s, rfl⟩ := finishParse_shape h
    exact ⟨rfl, ⟨s, rfl⟩, ⟨_, rfl⟩⟩
  · cases h

/-- Interpreter resolutions other than by fenced-block extraction: either the
whole-text JSON parse (strategy 1) fires, or the fenced-block strategy falls
through and the result comes from strategies 3/4 or the default. -/
def nonFenced (t : String) : Prop :=
  strat1 t ≠ none ∨ strat2 t = none

theorem parseLLM_nonFenced_shape {t : String} {r : ParsedResponse}
    (hnf : nonFenced t) (h : parseLLM t = .ok r) :
    r.response = none ∧ (∃ s, r.text = some (.str s)) := by
  unfold parseLLM at h
  cases h1 : strat1 t with
  | some x =>
    rw [h1] at h
    subst h
    obtain ⟨a, b, _⟩ := strat1_shape h1
    exact ⟨a, b⟩
  | none =>
    rw [h1] at h
    have h2 : strat2 t = none := by
      rcases hnf with hl | hr
      · exact absurd h1 hl
      · exact hr
    rw [h2] at h
    obtain ⟨a, b, _⟩ := strat34_shape h
    exact ⟨a, b⟩

/-! ### History-trim lemmas -/

theorem trimStep_concat_getLast (maxLen : Nat) (l : List Msg) (m : Msg)
    (hpos : 0 < maxLen) :
    (trimStep maxLen (l ++ [m])).getLast? = some m := by
  unfold trimStep
  split
  next hlt =>
    have hl : 1 ≤ l.length := by
      by_contra hc
      push_neg at hc
      interval_cases hl : l.length
      · simp at hlt
        omega
    rw [List.drop_append_of_le_length hl]
    exact List.getLast?_concat _
  · exact List.getLast?_concat _

theorem trimStep_eq_lastN (maxLen : Nat) (l : List Msg)
    (h : l.length ≤ maxLen + 1) :
    trimStep maxLen l = lastN maxLen l := by
  unfold trimStep lastN
  split
  next hlt =>
    have h1 : l.length - maxLen = 1 := by omega
    rw [h1]
  next hlt =>
    have h0 : l.length - maxLen = 0 := by omega
    rw [h0, List.drop_zero]

theorem lastN_of_le {l : List α} {n : Nat} (h : l.length ≤ n) :
    lastN n l = l := by
  unfold lastN
  rw [Nat.sub_eq_zero_of_le h, List.drop_zero]

theorem lastN_length {l : List α} {n : Nat} :
    (lastN n l).length = min l.length n := by
  unfold lastN
  rw [List.length_drop]
  omega

theorem lastN_drop_one {l : List α} {n : Nat} (h : n + 1 ≤ l.length) :
    lastN n (l.drop 1) = lastN n l := by
  unfold lastN
  rw [List.length_drop, List.drop_drop]
  congr 1
  omega

theorem lastN_append_left {x y : List α} {n : Nat} :
    lastN n (lastN n x ++ y) = lastN n (x ++ y) := by
  unfold lastN
  rw [List.length_append, List.length_drop]
  rw [← List.drop_append_of_le_length (Nat.sub_le x.length n)]
  rw [List.drop_drop]
  congr 1
  rw [List.length_append]
  omega

theorem trimStep_length_le {maxLen : Nat} {l : List Msg}
    (h : l.length ≤ maxLen + 1) :
    (trimStep maxLen l).length ≤ maxLen := by
  unfold trimStep
  split
  next hlt =>
    rw [List.length_drop]
    omega
  next hlt => omega

theorem foldl_addMsg (maxLen : Nat) (adds : List Msg) :
    ∀ c : Conv, c.messages.length ≤ maxLen →
      (adds.foldl (fun acc m => acc.addMsg maxLen m.role m.content) c).messages =
        lastN maxLen (c.messages ++ adds) := by
  induction adds with
  | nil =>
    intro c h
    simp only [List.foldl_nil, List.append_nil]
    exact (lastN_of_le h).symm
  | cons a rest ih =>
    intro c h
    simp only [List.foldl_cons]
    have hlen : (c.messages ++ [a]).length ≤ maxLen + 1 := by
      rw [List.length_append]
      simp only [List.length_singleton]
      omega
    have hstep : (c.addMsg maxLen a.role a.content).messages.length ≤ maxLen := by
      show (trimStep maxLen (c.messages ++ [⟨a.role, a.content⟩])).length ≤ maxLen
      exact trimStep_length_le hlen
    rw [ih (c.addMsg maxLen a.role a.content) hstep]
    show lastN maxLen (trimStep maxLen (c.messages ++ [⟨a.role, a.content⟩]) ++ rest) = _
    rw [trimStep_eq_lastN maxLen _ hlen]
    rw [lastN_append_left]
    rw [List.append_assoc]
    rfl

/-! ### Claim theorems -/

/-- C6: For every sequence of `add_message` appends on a conversation (whose
history respects the bound, as every conversation built by the store does),
the messages sequence never exceeds `max_history_length` (default 10 in
`ContextManager.__init__`); each append beyond the cap leaves exactly
`max_history_length` messages, evicting the oldest message first (FIFO),
irrespective of role: the final history is exactly the last
`max_history_length` entries of the full append sequence. -/
theorem history_bounded_fifo (maxLen : Nat) (c : Conv) (adds : List Msg)
    (h : c.messages.length ≤ maxLen) :
    (adds.foldl (fun acc m => acc.addMsg maxLen m.role m.content) c).messages =
      lastN maxLen (c.messages ++ adds) ∧
    (adds.foldl (fun acc m => acc.addMsg maxLen m.role m.content) c).messages.length =
      min (c.messages.length + adds.length) maxLen ∧
    (adds.foldl (fun acc m => acc.addMsg maxLen m.role m.content) c).messages.length ≤
      maxLen := by
  have h1 := foldl_addMsg maxLen adds c h
  refine ⟨h1, ?_, ?_⟩
  · rw [h1, lastN_length, List.length_append]
  · rw [h1, lastN_length]
    omega

/-- Concrete conversation for the C6 witness. -/
def convW : Conv := ⟨[], []⟩

/-- Concrete append sequence for the C6 witness. -/
def addsW : List Msg := [⟨"user", "a"⟩, ⟨"assistant", "b"⟩, ⟨"user", "c"⟩]

/-- Witness for C6 at a concrete instance: three appends against a cap of
two leave exactly the last two messages. -/
theorem history_bounded_fifo_witness :
    convW.messages.length ≤ 2 ∧
    (addsW.foldl (fun acc m => acc.addMsg 2 m.role m.content) convW).messages =
      lastN 2 (convW.messages ++ addsW) ∧
    (addsW.foldl (fun acc m => acc.addMsg 2 m.role m.content) convW).messages.length =
      min (convW.messages.length + addsW.length) 2 :=
  ⟨by decide,
    (history_bounded_fifo 2 convW addsW (by decide)).1,
    (history_bounded_fifo 2 convW addsW (by decide)).2.1⟩

/-- C3 counterexample: the interpreter is NOT total — on the well-formed
JSON object `{"response": 42, "tool_call": null}` strategy 1 extracts the
number 42 as the reply and `text.strip()` raises `AttributeError`
(agent.py line 123), so `interpret` does not return a usable pair. -/
theorem interp_raises_counterexample :
    parseLLM "\x7b\"response\": 42, \"tool_call\": null\x7d" = .error .attributeError := rfl

/-- C3 amended: the interpreter terminates on every input (it is a total
function of the input text), and whenever all four strategies fall through —
strategy 1 (no whole-text JSON object), strategy 2 (no parseable fenced
block), strategy 3 (no brace candidate with a `tool_call` key), strategy 4
(its candidate is not a JSON object with a `tool_call` key) — it returns the
usable default `text = rawText.strip()`, `toolCall = null` without raising;
it can raise only when a strategy extracts a non-string reply or a
non-object fenced payload (cf. the counterexample). -/
theorem interp_default_fallthrough (t : String)
    (h1 : strat1 t = none) (h2 : strat2 t = none)
    (h3 : strat3Scan (braceFindAll (t.data.length + 1) t.data) = none)
    (h4 : ∀ m', Json.parse (strat4Candidate t) = some (.obj m') →
      (jlookup m' "tool_call").isSome = false) :
    parseLLM t = .ok ⟨some (.str (pyStrip t)), none, some .null⟩ := by
  simp only [parseLLM, h1, h2, strat34, h3, strat4After]
  rw [if_neg (by decide : ¬pyTruthy JValue.null = true)]
  by_cases hg : (t.data.contains '{' && t.data.contains '}') = true
  · rw [if_pos hg]
    cases hp : Json.parse (strat4Candidate t) with
    | none => rfl
    | some v =>
      cases v with
      | obj m' =>
        simp only [h4 m' hp]
        rfl
      | null => rfl
      | bool b => rfl
      | num n => rfl
      | str s => rfl
      | arr xs => rfl
  · rw [if_neg hg]
    rfl

/-- Concrete input for the C3 witness: plain text on which all four
strategies fall through. -/
def plainW : String := "The weather is sunny today"

/-- Witness for C3 (amended) at a concrete input: every strategy falls
through and the default pair is returned. -/
theorem interp_default_fallthrough_witness :
    strat1 plainW = none ∧ strat2 plainW = none ∧
    parseLLM plainW = .ok ⟨some (.str (pyStrip plainW)), none, some .null⟩ :=
  ⟨rfl, rfl,
    interp_default_fallthrough plainW rfl rfl rfl
      (fun m' h => by
        rw [show Json.parse (strat4Candidate plainW) = none from rfl] at h
        cases h)⟩

/-- C4 counterexample: on `{"response": " hi ", "tool_call": null}` strategy
1 returns the response field STRIPPED (`text.strip()`, agent.py line 123), so
`interpret(s).text` is `"hi"`, not the field value `" hi "` the claim
requires. -/
theorem strat1_strip_counterexample :
    parseLLM "\x7b\"response\": \" hi \", \"tool_call\": null\x7d" =
      .ok ⟨some (.str "hi"), none, some .null⟩ ∧ (" hi " : String) ≠ "hi" :=
  ⟨rfl, by decide⟩

/-- C4 amended: for any JSON object string `s` with a string response field
`r` and a null `tool_call`, strategy 1 returns immediately (no later
strategy is reached) with `text = r.strip()` — not `r` verbatim — and
`toolCall = null`. -/
theorem strat1_object_reply (s r : String) (m : JObj)
    (hm : Json.parse s = some (.obj m))
    (hr : jlookup m "response" = some (.str r))
    (ht : jlookup m "tool_call" = some .null) :
    parseLLM s = .ok ⟨some (.str (pyStrip r)), none, some .null⟩ := by
  have h1 : strat1 s = some (.ok ⟨some (.str (pyStrip r)), none, some .null⟩) := by
    simp only [strat1, hm, hr, ht, Option.getD_some]
    rfl
  simp only [parseLLM, h1]

/-- Witness for C4 (amended) at a concrete input. -/
theorem strat1_object_reply_witness :
    Json.parse "\x7b\"response\": \"All good\", \"tool_call\": null\x7d" =
      some (.obj [("response", .str "All good"), ("tool_call", .null)]) ∧
    parseLLM "\x7b\"response\": \"All good\", \"tool_call\": null\x7d" =
      .ok ⟨some (.str (pyStrip "All good")), none, some .null⟩ :=
  ⟨rfl,
    strat1_object_reply "\x7b\"response\": \"All good\", \"tool_call\": null\x7d" "All good"
      [("response", .str "All good"), ("tool_call", .null)] rfl rfl rfl⟩

/-- C5: for any text whose (first) fenced code block parses as
`{"response": r, "tool_call": {"name": n, "parameters": p}}` — and on which
strategy 1 falls through, which holds for every such text since the block's
unescaped quotes preclude the whole text from being a JSON object — the
fenced-block strategy returns the parsed object's fields directly, with no
defaulting: `toolCall = {name: n, parameters: p}` and the reply is the
object's `response` field. -/
theorem fenced_block_tool_call (t : String) (g : List Char) (r p : JValue)
    (n : String)
    (h1 : strat1 t = none)
    (h2 : fencedSearch t.data = some g)
    (h3 : Json.parse (String.mk g) =
      some (.obj [("response", r),
        ("tool_call", .obj [("name", .str n), ("parameters", p)])])) :
    parseLLM t =
      .ok ⟨none, some r, some (.obj [("name", .str n), ("parameters", p)])⟩ := by
  have hs2 : strat2 t =
      some (.ok ⟨none, some r, some (.obj [("name", .str n), ("parameters", p)])⟩) := by
    simp only [strat2, h2, h3]
    rfl
  simp only [parseLLM, h1, hs2]

/-- Concrete input for the C5 witness. -/
def fencedW : String :=
  "Sure thing.\n```json\n\x7b\"response\": \"Formatting now\", \"tool_call\": \x7b\"name\": \"format_text\", \"parameters\": \x7b\"text\": \"hi\"\x7d\x7d\x7d\n```\nDone."

/-- Witness for C5 at a concrete input. -/
theorem fenced_block_tool_call_witness :
    strat1 fencedW = none ∧
    parseLLM fencedW =
      .ok ⟨none, some (.str "Formatting now"),
        some (.obj [("name", .str "format_text"),
          ("parameters", .obj [("text", .str "hi")])])⟩ :=
  ⟨rfl,
    fenced_block_tool_call fencedW
      "\x7b\"response\": \"Formatting now\", \"tool_call\": \x7b\"name\": \"format_text\", \"parameters\": \x7b\"text\": \"hi\"\x7d\x7d\x7d".data
      (.str "Formatting now") (.obj [("text", .str "hi")]) "format_text" rfl rfl rfl⟩

/-- Oracle for the C1 scenario: discovery returns no tools and generation
returns the plain unstructured text of the spec scenario. -/
def oracleC1 : Oracles := ⟨[], fun _ => "The answer is 42.", ⟨.null, .null⟩⟩

/-- C1, evaluated: when generation returns the plain text
`"The answer is 42."` (no braces), the connector wraps it, strategy 1
interprets it with `toolCall = null`, no execution call and no follow-up
call are made (effects `⟨1, 0, 0⟩`) — but the reply text of the envelope and
the recorded assistant message are the EMPTY string, not the input verbatim,
because `process_input` reads the key `"response"` (agent.py line 259) while
`_parse_llm_response` returns the reply under `"text"` (agent.py line 194).
The repository's own test (`test_process_input`, tests/test_agent.py line
194) expects the interpreted reply to reach the envelope. -/
theorem plain_text_run :
    processInput oracleC1 [] "What is the answer?" none "conv-1" =
      .ok (⟨"conv-1", .str "", .null, .null, none⟩,
        [("conv-1", ⟨[⟨"user", "What is the answer?"⟩, ⟨"assistant", ""⟩], []⟩)],
        ⟨1, 0, 0⟩) ∧ JValue.str "" ≠ JValue.str "The answer is 42." :=
  ⟨rfl, by simp⟩

theorem assistant_last (x : Store) (cid s : String) :
    ∃ c, storeFind (addMessageS 10 x cid "assistant" s) cid = some c ∧
      c.messages.getLast? = some ⟨"assistant", s⟩ := by
  rw [addMessageS_eq]
  refine ⟨_, storeFind_set_self _ _ _, ?_⟩
  show (trimStep 10 ((storeGetConv x cid).messages ++ [⟨"assistant", s⟩])).getLast? = _
  exact trimStep_concat_getLast 10 _ _ (by omega)

theorem str_empty_of_getD {v : Option JValue} {s : String}
    (hv : v = none) (h : v.getD (.str "") = .str s) : s = "" := by
  rw [hv] at h
  simp only [Option.getD_none] at h
  exact (JValue.str.inj h).symm

/-- C2: whenever the interpreter resolves a generation output by any
strategy other than fenced-block extraction (the whole-text JSON parse, the
balanced-brace scan, the last-resort extraction, or the fall-through
default), its result carries the reply under the `"text"` key and has no
`"response"` key, while `process_input` reads `"response"`; consequently in
any completed request whose interpretations were so resolved, the
`"response"` field of the returned envelope and the recorded assistant
message both equal the empty string. -/
theorem text_key_response_key_mismatch :
    (∀ (w : String) (r : ParsedResponse), nonFenced w → parseLLM w = .ok r →
      r.response = none ∧ ∃ s, r.text = some (.str s)) ∧
    (∀ (o : Oracles) (st : Store) (u : String) (cidOpt : Option String)
        (fresh : String) (env : Envelope) (st' : Store) (eff : Effects),
      processInput o st u cidOpt fresh = .ok (env, st', eff) →
      nonFenced (wrapResp (o.gen 0)) →
      (eff.followUpCalls = 1 → nonFenced (wrapResp (o.gen 1))) →
      env.response = .str "" ∧
      ∃ c, storeFind st' (resolveCid cidOpt fresh) = some c ∧
        c.messages.getLast? = some ⟨"assistant", ""⟩) := by
  constructor
  · intro w r hnf h
    exact parseLLM_nonFenced_shape hnf h
  · intro o st u cidOpt fresh env st' eff hrun hnf0 hnf1
    obtain ⟨parsed, hp, hai⟩ := processInput_ok hrun
    have hresp : parsed.response = none := (parseLLM_nonFenced_shape hnf0 hp).1
    rcases afterInterpret_ok hai with ⟨_, hfin⟩ | ⟨m, _, _, htp⟩
    · obtain ⟨s, hrt, henv, hst, _⟩ := finalizeRun_ok hfin
      obtain rfl := str_empty_of_getD hresp hrt
      refine ⟨by rw [henv], ?_⟩
      rw [hst]
      exact assistant_last _ _ _
    · obtain ⟨n, p, _, _, _, hcase⟩ := toolPhase_ok htp
      rcases hcase with ⟨_, hfin⟩ | ⟨_, hfu⟩
      · obtain ⟨s, hrt, henv, hst, _⟩ := finalizeRun_ok hfin
        obtain rfl := str_empty_of_getD hresp hrt
        refine ⟨by rw [henv], ?_⟩
        rw [hst]
        exact assistant_last _ _ _
      · obtain ⟨p2, hp2, hfin⟩ := followUpPhase_ok hfu
        obtain ⟨s, hrt, henv, hst, heff⟩ := finalizeRun_ok hfin
        have hresp2 : p2.response = none :=
          (parseLLM_nonFenced_shape (hnf1 (by rw [heff])) hp2).1
        obtain rfl := str_empty_of_getD hresp2 hrt
        refine ⟨by rw [henv], ?_⟩
        rw [hst]
        exact assistant_last _ _ _

/-- Witness for C2 at the concrete plain-text run of the C1 oracle: the
initial (and hypothetical follow-up) interpretations resolve by strategy 1,
and the envelope response and recorded assistant message are empty. -/
theorem text_key_response_key_mismatch_witness :
    (⟨"conv-1", .str "", .null, .null, none⟩ : Envelope).response = .str "" ∧
    ∃ c, storeFind
        [("conv-1", (⟨[⟨"user", "What is the answer?"⟩, ⟨"assistant", ""⟩], []⟩ : Conv))]
        (resolveCid none "conv-1") = some c ∧
      c.messages.getLast? = some ⟨"assistant", ""⟩ :=
  text_key_response_key_mismatch.2 oracleC1 [] "What is the answer?" none "conv-1"
    ⟨"conv-1", .str "", .null, .null, none⟩
    [("conv-1", ⟨[⟨"user", "What is the answer?"⟩, ⟨"assistant", ""⟩], []⟩)]
    ⟨1, 0, 0⟩ (by rfl)
    (Or.inl (by rw [show strat1 (wrapResp (oracleC1.gen 0)) =
      some (.ok ⟨some (.str "The answer is 42."), none, some .null⟩) from rfl]; simp))
    (fun h => absurd h (by decide))

theorem toolCalls_addMessageS (x : Store) (cid role content : String) :
    (storeGetConv (addMessageS 10 x cid role content) cid).tool_calls =
      (storeGetConv x cid).tool_calls := by
  rw [storeGetConv_addMessageS_self]
  rfl

theorem toolCalls_getFullContext (maxLen : Nat) (x : Store) (cid u : String)
    (tools : List ToolDesc) :
    (storeGetConv (getFullContext maxLen x cid u tools).2 cid).tool_calls =
      (storeGetConv x cid).tool_calls := by
  rw [getFullContext_store, storeGetConv_set_self]
  rfl

theorem toolCalls_addToolCallS (x : Store) (cid : String) (rec : ToolRec) :
    (storeGetConv (addToolCallS x cid rec) cid).tool_calls =
      (storeGetConv x cid).tool_calls ++ [rec] := by
  rw [storeGetConv_addToolCallS_self]

theorem messages_addToolCallS (x : Store) (cid : String) (rec : ToolRec) :
    (storeGetConv (addToolCallS x cid rec) cid).messages =
      (storeGetConv x cid).messages := by
  rw [storeGetConv_addToolCallS_self]

theorem messages_getFullContext (maxLen : Nat) (x : Store) (cid u : String)
    (tools : List ToolDesc) :
    (storeGetConv (getFullContext maxLen x cid u tools).2 cid).messages =
      trimStep maxLen ((storeGetConv x cid).messages ++ [⟨"user", u⟩]) := by
  rw [getFullContext_store, storeGetConv_set_self]
  rfl

theorem storeFind_getFullContext_ne (maxLen : Nat) (x : Store) (cid u k : String)
    (tools : List ToolDesc) (h : k ≠ cid) :
    storeFind (getFullContext maxLen x cid u tools).2 k = storeFind x k := by
  rw [getFullContext_store]
  exact storeFind_set_ne x cid k _ h

theorem Conv.addMsg_tool_calls (c : Conv) (maxLen : Nat) (role content : String) :
    (c.addMsg maxLen role content).tool_calls = c.tool_calls := rfl

theorem Conv.addMsg_messages (c : Conv) (maxLen : Nat) (role content : String) :
    (c.addMsg maxLen role content).messages =
      trimStep maxLen (c.messages ++ [⟨role, content⟩]) := rfl

theorem storeFind_addMessageS_self (maxLen : Nat) (x : Store) (cid role content : String) :
    storeFind (addMessageS maxLen x cid role content) cid =
      some ((storeGetConv x cid).addMsg maxLen role content) := by
  rw [addMessageS_eq]
  exact storeFind_set_self _ _ _

/-- C7: in every completed orchestration round that produced a tool-call
intent, exactly TWO tool-call records carrying the intent's name and
parameters are appended to the conversation's tool-call log: a provisional
one with `result = null`, `error = null`, then a settled one with the
execution outcome.  The log is append-only (the prior log is a prefix,
nothing is mutated or trimmed), and exactly one execution call is made. -/
theorem tool_call_two_records (o : Oracles) (st : Store) (u : String)
    (cidOpt : Option String) (fresh : String) (env : Envelope) (st' : Store)
    (eff : Effects) (parsed : ParsedResponse) (m : JObj) (n : String) (p : JObj)
    (hrun : processInput o st u cidOpt fresh = .ok (env, st', eff))
    (hp : parseLLM (wrapResp (o.gen 0)) = .ok parsed)
    (htc : parsed.tool_call.getD .null = .obj m)
    (htruthy : pyTruthy (JValue.obj m) = true)
    (hn : (jlookup m "name").getD (.str "unknown") = .str n)
    (hpp : (jlookup m "parameters").getD (.obj []) = .obj p) :
    ∃ c, storeFind st' (resolveCid cidOpt fresh) = some c ∧
      c.tool_calls = (storeGetConv st (resolveCid cidOpt fresh)).tool_calls ++
        [⟨n, p, .null, .null⟩, ⟨n, p, o.exec.result, o.exec.error⟩] ∧
      eff.execCalls = 1 := by
  obtain ⟨parsed', hp', hai⟩ := processInput_ok hrun
  rw [hp] at hp'
  obtain rfl := Except.ok.inj hp'
  set cid := resolveCid cidOpt fresh with hcid
  rcases afterInterpret_ok hai with ⟨htf, _⟩ | ⟨m', htc', _, htp⟩
  · rw [htc] at htf
    rw [htruthy] at htf
    cases htf
  · rw [htc] at htc'
    obtain rfl := JValue.obj.inj htc'
    obtain ⟨n2, p2, hn2, hpp2, _, hcase⟩ := toolPhase_ok htp
    rw [hn] at hn2
    rw [hpp] at hpp2
    obtain rfl := JValue.str.inj hn2
    obtain rfl := JValue.obj.inj hpp2
    rcases hcase with ⟨_, hfin⟩ | ⟨_, hfu⟩
    · obtain ⟨s, _, _, hst, heff⟩ := finalizeRun_ok hfin
      rw [hst, storeFind_addMessageS_self]
      refine ⟨_, rfl, ?_, ?_⟩
      · rw [Conv.addMsg_tool_calls, toolCalls_addToolCallS, toolCalls_addToolCallS,
          toolCalls_getFullContext, List.append_assoc]
        rfl
      · rw [heff]
    · obtain ⟨p2, hp2, hfin⟩ := followUpPhase_ok hfu
      obtain ⟨s, _, _, hst, heff⟩ := finalizeRun_ok hfin
      rw [hst, storeFind_addMessageS_self]
      refine ⟨_, rfl, ?_, ?_⟩
      · rw [Conv.addMsg_tool_calls, toolCalls_getFullContext, toolCalls_addToolCallS,
          toolCalls_addToolCallS, toolCalls_getFullContext, List.append_assoc]
        rfl
      · rw [heff]

/-- Oracle for the tool-call witnesses: generation emits a JSON tool call,
execution succeeds with a non-null result. -/
def oracleTool : Oracles :=
  ⟨[], fun k => if k = 0 then
      "\x7b\"response\": \"Working\", \"tool_call\": \x7b\"name\": \"fmt\", \"parameters\": \x7b\"x\": \"1\"\x7d\x7d\x7d"
    else "done", ⟨.str "OK", .null⟩⟩

/-- Final store of the concrete tool-call run. -/
def stToolW : Store :=
  [("conv-7", ⟨[⟨"user", "format please"⟩, ⟨"user", "format please"⟩, ⟨"assistant", ""⟩],
    [⟨"fmt", [("x", .str "1")], .null, .null⟩,
     ⟨"fmt", [("x", .str "1")], .str "OK", .null⟩]⟩)]

/-- Envelope of the concrete tool-call run. -/
def envToolW : Envelope :=
  ⟨"conv-7", .str "", .str "fmt", .obj [("x", .str "1")], some ⟨.str "OK", .null⟩⟩

/-- The interpreter output of the concrete tool-call run. -/
def parsedToolW : ParsedResponse :=
  ⟨some (.str "Working"), none,
    some (.obj [("name", .str "fmt"), ("parameters", .obj [("x", .str "1")])])⟩

/-- Witness for C7 at the concrete tool-call run. -/
theorem tool_call_two_records_witness :
    ∃ c, storeFind stToolW (resolveCid none "conv-7") = some c ∧
      c.tool_calls = (storeGetConv [] (resolveCid none "conv-7")).tool_calls ++
        [⟨"fmt", [("x", .str "1")], .null, .null⟩,
         ⟨"fmt", [("x", .str "1")], .str "OK", .null⟩] ∧
      (⟨2, 1, 1⟩ : Effects).execCalls = 1 :=
  tool_call_two_records oracleTool [] "format please" none "conv-7" envToolW stToolW
    ⟨2, 1, 1⟩ parsedToolW
    [("name", .str "fmt"), ("parameters", .obj [("x", .str "1")])] "fmt" [("x", .str "1")]
    (by rfl) (by rfl) (by rfl) (by rfl) (by rfl) (by rfl)

/-- C8: in every completed request, a follow-up generation call occurs
exactly when a tool was executed and the execution outcome's `result` is
non-null — exactly one follow-up in that case, zero otherwise — and when no
follow-up occurs the reply standing in the envelope is the one extracted
from the original interpretation; the total generation-call count is one
plus the follow-up count. -/
theorem followup_iff_nonnull_result (o : Oracles) (st : Store) (u : String)
    (cidOpt : Option String) (fresh : String) (env : Envelope) (st' : Store)
    (eff : Effects) (parsed : ParsedResponse)
    (hrun : processInput o st u cidOpt fresh = .ok (env, st', eff))
    (hp : parseLLM (wrapResp (o.gen 0)) = .ok parsed) :
    (eff.followUpCalls =
      if eff.execCalls = 1 ∧ o.exec.result.isNull = false then 1 else 0) ∧
    (eff.followUpCalls = 0 → env.response = parsed.response.getD (.str "")) ∧
    eff.genCalls = 1 + eff.followUpCalls := by
  obtain ⟨parsed', hp', hai⟩ := processInput_ok hrun
  rw [hp] at hp'
  obtain rfl := Except.ok.inj hp'
  rcases afterInterpret_ok hai with ⟨_, hfin⟩ | ⟨m, _, _, htp⟩
  · obtain ⟨s, hrt, henv, _, heff⟩ := finalizeRun_ok hfin
    subst heff
    refine ⟨?_, ?_, rfl⟩
    · rw [if_neg (fun h => absurd h.1 (by decide))]
    · intro _
      rw [henv]
      exact hrt.symm
  · obtain ⟨n, p, _, _, _, hcase⟩ := toolPhase_ok htp
    rcases hcase with ⟨hnull, hfin⟩ | ⟨hnn, hfu⟩
    · obtain ⟨s, hrt, henv, _, heff⟩ := finalizeRun_ok hfin
      subst heff
      refine ⟨?_, ?_, rfl⟩
      · rw [if_neg (by simp [hnull])]
      · intro _
        rw [henv]
        exact hrt.symm
    · obtain ⟨p2, hp2, hfin⟩ := followUpPhase_ok hfu
      obtain ⟨s, hrt, henv, _, heff⟩ := finalizeRun_ok hfin
      subst heff
      refine ⟨?_, ?_, rfl⟩
      · rw [if_pos ⟨rfl, hnn⟩]
      · intro h0
        exact absurd h0 (by decide)

/-- Witness for C8 at the concrete tool-call run: the non-null result
produced exactly one follow-up call. -/
theorem followup_iff_nonnull_result_witness :
    ((⟨2, 1, 1⟩ : Effects).followUpCalls =
      if (⟨2, 1, 1⟩ : Effects).execCalls = 1 ∧ oracleTool.exec.result.isNull = false
      then 1 else 0) ∧
    ((⟨2, 1, 1⟩ : Effects).followUpCalls = 0 →
      envToolW.response = parsedToolW.response.getD (.str "")) ∧
    (⟨2, 1, 1⟩ : Effects).genCalls = 1 + (⟨2, 1, 1⟩ : Effects).followUpCalls :=
  followup_iff_nonnull_result oracleTool [] "format please" none "conv-7" envToolW
    stToolW ⟨2, 1, 1⟩ parsedToolW (by rfl) (by rfl)

/-- C9: every `get_full_context` call appends exactly one user Message with
the given input to the conversation (trimming per the history bound) and
changes nothing else in the store — the tool-call log and all other
conversations are untouched; and in every completed request that ran the
follow-up branch, the context rebuild inserted the same user input a second
time, so the conversation history ends with user, user, assistant entries
for the one request. -/
theorem buildContext_appends_user :
    (∀ (maxLen : Nat) (st : Store) (cid u : String) (tools : List ToolDesc),
      (getFullContext maxLen st cid u tools).2 =
        storeSet st cid ((storeGetConv st cid).addMsg maxLen "user" u) ∧
      (storeGetConv (getFullContext maxLen st cid u tools).2 cid).messages =
        trimStep maxLen ((storeGetConv st cid).messages ++ [⟨"user", u⟩]) ∧
      (storeGetConv (getFullContext maxLen st cid u tools).2 cid).tool_calls =
        (storeGetConv st cid).tool_calls ∧
      ∀ k, k ≠ cid →
        storeFind (getFullContext maxLen st cid u tools).2 k = storeFind st k) ∧
    (∀ (o : Oracles) (st : Store) (u : String) (cidOpt : Option String)
        (fresh : String) (env : Envelope) (st' : Store) (eff : Effects),
      processInput o st u cidOpt fresh = .ok (env, st', eff) →
      eff.followUpCalls = 1 →
      ∃ s, env.response = .str s ∧
        ∃ c, storeFind st' (resolveCid cidOpt fresh) = some c ∧
          c.messages = trimStep 10 (trimStep 10 (trimStep 10
            ((storeGetConv st (resolveCid cidOpt fresh)).messages ++ [⟨"user", u⟩])
            ++ [⟨"user", u⟩]) ++ [⟨"assistant", s⟩])) := by
  constructor
  · intro maxLen st cid u tools
    exact ⟨getFullContext_store maxLen st cid u tools,
      messages_getFullContext maxLen st cid u tools,
      toolCalls_getFullContext maxLen st cid u tools,
      fun k hk => storeFind_getFullContext_ne maxLen st cid u k tools hk⟩
  · intro o st u cidOpt fresh env st' eff hrun h1
    obtain ⟨parsed, hp, hai⟩ := processInput_ok hrun
    rcases afterInterpret_ok hai with ⟨_, hfin⟩ | ⟨m, _, _, htp⟩
    · obtain ⟨s, _, _, _, heff⟩ := finalizeRun_ok hfin
      subst heff
      exact absurd h1 (by decide)
    · obtain ⟨n, p, _, _, _, hcase⟩ := toolPhase_ok htp
      rcases hcase with ⟨_, hfin⟩ | ⟨_, hfu⟩
      · obtain ⟨s, _, _, _, heff⟩ := finalizeRun_ok hfin
        subst heff
        exact absurd h1 (by decide)
      · obtain ⟨p2, hp2, hfin⟩ := followUpPhase_ok hfu
        obtain ⟨s, _, henv, hst, _⟩ := finalizeRun_ok hfin
        refine ⟨s, by rw [henv], ?_⟩
        rw [hst, storeFind_addMessageS_self]
        refine ⟨_, rfl, ?_⟩
        rw [Conv.addMsg_messages, messages_getFullContext, messages_addToolCallS,
          messages_addToolCallS, messages_getFullContext]

/-- Witness for C9 (second part) at the concrete tool-call run: the user
turn appears twice, then the assistant reply. -/
theorem buildContext_appends_user_witness :
    ∃ s, envToolW.response = .str s ∧
      ∃ c, storeFind stToolW (resolveCid none "conv-7") = some c ∧
        c.messages = trimStep 10 (trimStep 10 (trimStep 10
          ((storeGetConv [] (resolveCid none "conv-7")).messages ++
            [⟨"user", "format please"⟩]) ++ [⟨"user", "format please"⟩]) ++
          [⟨"assistant", s⟩]) :=
  buildContext_appends_user.2 oracleTool [] "format please" none "conv-7" envToolW
    stToolW ⟨2, 1, 1⟩ (by rfl) (by rfl)

theorem processInput_frame (o : Oracles) (st : Store) (u : String)
    (cidOpt : Option String) (fresh : String) (env : Envelope) (st' : Store)
    (eff : Effects)
    (hrun : processInput o st u cidOpt fresh = .ok (env, st', eff)) :
    env.conversation_id = resolveCid cidOpt fresh ∧
    ∀ k, k ≠ resolveCid cidOpt fresh → storeFind st' k = storeFind st k := by
  obtain ⟨parsed, hp, hai⟩ := processInput_ok hrun
  set cid := resolveCid cidOpt fresh with hcid
  rcases afterInterpret_ok hai with ⟨_, hfin⟩ | ⟨m, _, _, htp⟩
  · obtain ⟨s, _, henv, hst, _⟩ := finalizeRun_ok hfin
    refine ⟨by rw [henv], fun k hk => ?_⟩
    rw [hst, storeFind_addMessageS_ne _ _ _ _ _ _ hk,
      storeFind_getFullContext_ne _ _ _ _ _ _ hk]
  · obtain ⟨n, p, _, _, _, hcase⟩ := toolPhase_ok htp
    rcases hcase with ⟨_, hfin⟩ | ⟨_, hfu⟩
    · obtain ⟨s, _, henv, hst, _⟩ := finalizeRun_ok hfin
      refine ⟨by rw [henv], fun k hk => ?_⟩
      rw [hst, storeFind_addMessageS_ne _ _ _ _ _ _ hk,
        storeFind_addToolCallS_ne _ _ _ _ hk, storeFind_addToolCallS_ne _ _ _ _ hk,
        storeFind_getFullContext_ne _ _ _ _ _ _ hk]
    · obtain ⟨p2, hp2, hfin⟩ := followUpPhase_ok hfu
      obtain ⟨s, _, henv, hst, _⟩ := finalizeRun_ok hfin
      refine ⟨by rw [henv], fun k hk => ?_⟩
      rw [hst, storeFind_addMessageS_ne _ _ _ _ _ _ hk,
        storeFind_getFullContext_ne _ _ _ _ _ _ hk,
        storeFind_addToolCallS_ne _ _ _ _ hk, storeFind_addToolCallS_ne _ _ _ _ hk,
        storeFind_getFullContext_ne _ _ _ _ _ _ hk]

/-- C10: calling `process_input` with the empty string as conversation id
behaves exactly as calling it with no conversation id — the fresh UUID
becomes the id of the request — and no conversation keyed by the empty
string is ever created or read (the store's empty-string key stays absent
throughout). -/
theorem empty_cid_like_fresh (o : Oracles) (st : Store) (u fresh : String)
    (hf : fresh ≠ "") (hst : storeFind st "" = none) :
    processInput o st u (some "") fresh = processInput o st u none fresh ∧
    ∀ env st' eff, processInput o st u none fresh = .ok (env, st', eff) →
      env.conversation_id = fresh ∧ storeFind st' "" = none := by
  refine ⟨rfl, fun env st' eff hrun => ?_⟩
  obtain ⟨hcid, hframe⟩ := processInput_frame o st u none fresh env st' eff hrun
  refine ⟨hcid, ?_⟩
  rw [hframe "" (fun h => hf h.symm), hst]

/-- Witness for C10 at the concrete plain-text run. -/
theorem empty_cid_like_fresh_witness :
    (processInput oracleC1 [] "What is the answer?" (some "") "conv-1" =
      processInput oracleC1 [] "What is the answer?" none "conv-1") ∧
    (⟨"conv-1", .str "", .null, .null, none⟩ : Envelope).conversation_id = "conv-1" ∧
    storeFind
      [("conv-1", (⟨[⟨"user", "What is the answer?"⟩, ⟨"assistant", ""⟩], []⟩ : Conv))]
      "" = none :=
  ⟨(empty_cid_like_fresh oracleC1 [] "What is the answer?" "conv-1" (by decide) rfl).1,
    (empty_cid_like_fresh oracleC1 [] "What is the answer?" "conv-1" (by decide) rfl).2
      ⟨"conv-1", .str "", .null, .null, none⟩
      [("conv-1", ⟨[⟨"user", "What is the answer?"⟩, ⟨"assistant", ""⟩], []⟩)]
      ⟨1, 0, 0⟩ (by rfl)⟩
